import Mathlib

/-!
Verification of `upgrade-py-direct-reqs` (`src/updr/cli.py`).

The tool is a single linear CLI workflow: read a dependency manifest
(`requirements.txt`-style line file or `pyproject.toml`), detect conflicting
manifest sources, query pip for outdated packages, intersect with the declared
direct dependencies, confirm interactively, upgrade, and repin the manifest.

This file shallowly embeds the Python source.  Python strings are Lean
`String`s manipulated through their `List Char` data; Python dicts are
insertion-ordered association lists (`PyDict`); subprocess results and user
input are fields of an explicit environment record `Env`; exceptions are an
explicit `PyExc` type threaded through `Except`.  The top-level `runMain`
mirrors `main()` including its `except CommandError` handler: a `CommandError`
becomes the `caughtCommandError` outcome, every other exception is `uncaught`.
-/

set_option maxHeartbeats 1000000

namespace Updr

/-! ## Python string primitives -/

/-- Whitespace test used by Python `str.strip`. -/
def wsChar (c : Char) : Bool := c.isWhitespace

/-- `str.strip` on the character list: drop whitespace at both ends. -/
def stripL (l : List Char) : List Char :=
  ((l.dropWhile wsChar).reverse.dropWhile wsChar).reverse

/-- Python `s.strip()`. -/
def pyStrip (s : String) : String := ⟨stripL s.data⟩

/-- Python `s.lower()` (ASCII case folding, as `Char.toLower`). -/
def pyLower (s : String) : String := ⟨s.data.map Char.toLower⟩

/-- Characters of a string up to (excluding) the first occurrence of `sep`,
the whole string if `sep` does not occur: Python `s.split(sep)[0]`. -/
def takeBeforeL (sep : List Char) : List Char → List Char
  | [] => []
  | c :: rest =>
    if List.isPrefixOf sep (c :: rest) then [] else c :: takeBeforeL sep rest

/-- Python `s.split("==")[0]`. -/
def splitEqEqHead (s : String) : String := ⟨takeBeforeL ['=', '='] s.data⟩

/-- A character matched by the regex class `[=<>~]`. -/
def opChar (c : Char) : Bool := c == '=' || c == '<' || c == '>' || c == '~'

/-- Python `re.split(r"[=<>~]", s)[0]`. -/
def reSplitHead (s : String) : String :=
  ⟨s.data.takeWhile (fun c => !(opChar c))⟩

/-- Python `s.startswith("#")`. -/
def startsWithHash (s : String) : Bool :=
  match s.data with
  | [] => false
  | c :: _ => c == '#'

/-- Python `s.split(sep)` for a single-character separator: always returns at
least one (possibly empty) group. -/
def splitCharL (sep : Char) : List Char → List (List Char)
  | [] => [[]]
  | c :: rest =>
    if c = sep then [] :: splitCharL sep rest
    else
      match splitCharL sep rest with
      | [] => [[c]]
      | g :: gs => (c :: g) :: gs

/-- Python `s.split(".")`. -/
def pySplitDot (s : String) : List String :=
  (splitCharL '.' s.data).map (fun l => ⟨l⟩)

/-- Python `s.splitlines()` as applied in the source: the argument is already
`strip`ped, so it neither starts nor ends with a newline and splitting on
`'\n'` agrees with Python except on the empty string, which yields `[]`. -/
def pySplitlines (s : String) : List String :=
  if s.data = [] then [] else (splitCharL '\n' s.data).map (fun l => ⟨l⟩)

/-! ## Python dicts: insertion-ordered association lists -/

/-- A Python `dict` with `String` keys: an association list in insertion
order, keys unique by construction through `dictInsert`. -/
abbrev PyDict (β : Type) := List (String × β)

/-- First value bound to `k` (Python `d[k]` / `d.get(k)`). -/
def dictLookup {β : Type} : PyDict β → String → Option β
  | [], _ => none
  | p :: rest, k => if p.1 = k then some p.2 else dictLookup rest k

/-- Python `k in d`. -/
def dictContains {β : Type} (d : PyDict β) (k : String) : Bool :=
  (dictLookup d k).isSome

/-- Python `d[k] = v`: update in place if the key exists, else append. -/
def dictInsert {β : Type} (k : String) (v : β) (d : PyDict β) : PyDict β :=
  if dictContains d k = true then
    d.map (fun p => if p.1 = k then (k, v) else p)
  else d ++ [(k, v)]

/-! ## Data model -/

/-- One record of `pip list -o --format=json`. -/
structure OutdatedPkg where
  name : String
  version : String
  latest_version : String
deriving DecidableEq, Repr

/-- The `[project]` table of a parsed `pyproject.toml`, as far as the tool
reads it: an optional `dependencies` key holding a list of declaration
strings. -/
structure TomlProject where
  dependencies : Option (List String)
deriving DecidableEq, Repr

/-- A parsed `pyproject.toml` document: an optional `[project]` table. -/
structure TomlDoc where
  project : Option TomlProject
deriving DecidableEq, Repr

/-- Python exceptions that can escape the functions modelled here.
`commandError` is the source's own `CommandError`; the rest are builtins. -/
inductive PyExc where
  | commandError
  | osError
  | calledProcessError
  | jsonDecodeError
  | typeError
  | keyError
  | indexError
deriving DecidableEq, Repr

/-- Content written back to the manifest file: either the rewritten
requirements lines or the re-serialized toml document. -/
inductive FileContent where
  | lines (ls : List String)
  | toml (doc : TomlDoc)
deriving DecidableEq, Repr

/-- Outcome of the `pip list -o --format=json` subprocess: whether the command
could be invoked at all, its exit code, and its stdout parsed as the expected
JSON shape (`none` when the output is not parseable; `json.loads` raises
`JSONDecodeError` there, and a shape mismatch raises `KeyError`/`TypeError` —
all equally uncaught, represented by the JSON case). -/
structure QueryEnv where
  invokable : Bool
  exitCode : Nat
  parsed : Option (List OutdatedPkg)
deriving DecidableEq, Repr

/-- The external world of one run of `main`: the file system, the three
subprocess results and the interactive answer. -/
structure Env where
  fileName : String
  fileExists : Bool
  isDir : Bool
  fileLines : List String
  fileToml : TomlDoc
  siblingTomlExists : Bool
  siblingToml : TomlDoc
  query : QueryEnv
  userInput : String
  upgradeExit : Nat
  freezeExit : Nat
  freezeStdout : String
deriving DecidableEq, Repr

/-- How `main` terminated: a plain return, `CommandError` caught by the
`except CommandError` handler, or an exception propagating uncaught. -/
inductive Outcome where
  | returned
  | caughtCommandError
  | uncaught (e : PyExc)
deriving DecidableEq, Repr

/-- State of the `tempfile.NamedTemporaryFile(delete=False)` used by
`_confirm_and_upgrade`. -/
structure UpgradeState where
  tmpCreated : Bool
  tmpExists : Bool
deriving DecidableEq, Repr

/-- Observable result of one run: termination mode, the manifest rewrite (if
one happened; `none` means the file on disk is byte-identical to before), and
which milestones of the workflow were reached. -/
structure RunResult where
  outcome : Outcome
  written : Option FileContent := none
  depsUsed : Option (PyDict String) := none
  queryPerformed : Bool := false
  gateReached : Bool := false
  upgradeRun : Bool := false
  repinReached : Bool := false
  printedConflict : Bool := false
  printedNothingToDo : Bool := false
  printedCancelled : Bool := false
  tmpCreated : Bool := false
  tmpExists : Bool := false
deriving DecidableEq, Repr

/-! ## The source functions -/

/-- The source's `run_cmd(cmd, capture)` (renamed: the source name is a Lean
keyword): `subprocess.run(..., check=True)` raises `CalledProcessError` on a
non-zero exit, converted to `CommandError`; on success the captured output is
`result.stdout.strip()`. -/
def runCmd (exitCode : Nat) (stdout : String) (capture : Bool) :
    Except PyExc String :=
  if exitCode ≠ 0 then .error .commandError
  else .ok (if capture then pyStrip stdout else "")

/-- The dictionary built by `list_outdated` from the parsed JSON records:
`{pkg["name"].lower(): (pkg["version"], pkg["latest_version"]) for pkg in data}`. -/
def list_outdated (recs : List OutdatedPkg) : PyDict (String × String) :=
  recs.foldl (fun d r => dictInsert (pyLower r.name) (r.version, r.latest_version) d) []

/-- `list_outdated()` including its subprocess and JSON-decoding failure
modes: `subprocess.run(check=True)` is *not* wrapped in a try/except here, so
an invocation failure raises `OSError`, a non-zero exit raises
`CalledProcessError`, and unparseable stdout raises `JSONDecodeError`. -/
def list_outdatedRun (q : QueryEnv) : Except PyExc (PyDict (String × String)) :=
  if q.invokable = false then .error .osError
  else if q.exitCode ≠ 0 then .error .calledProcessError
  else
    match q.parsed with
    | none => .error .jsonDecodeError
    | some recs => .ok (list_outdated recs)

/-- Key under which a requirements line is stored:
`line.split("==")[0].lower()`. -/
def reqKeyOf (line : String) : String := pyLower (splitEqEqHead line)

/-- `load_requirements`: for each stripped, non-empty, non-comment line,
record the full line under its lowercased name. -/
def load_requirements (fileLines : List String) : PyDict String :=
  fileLines.foldl
    (fun deps rawLine =>
      if pyStrip rawLine ≠ "" ∧ startsWithHash (pyStrip rawLine) = false then
        dictInsert (reqKeyOf (pyStrip rawLine)) (pyStrip rawLine) deps
      else deps)
    []

/-- Key under which a toml dependency string is stored:
`re.split(r"[=<>~]", dep)[0].lower().strip()`. -/
def tomlKeyOf (dep : String) : String := pyStrip (pyLower (reSplitHead dep))

/-- The dict comprehension of `load_toml_deps`. -/
def tomlDepsDict (depsList : List String) : PyDict String :=
  depsList.foldl (fun d dep => dictInsert (tomlKeyOf dep) dep d) []

/-- `load_toml_deps`: `None, None` when the `[project]` table or its
`dependencies` key is absent, else the dependency dict and the document. -/
def load_toml_deps (doc : TomlDoc) : Option (PyDict String × TomlDoc) :=
  match doc.project with
  | none => none
  | some proj =>
    match proj.dependencies with
    | none => none
    | some ds => some (tomlDepsDict ds, doc)

/-- Whether a parsed `pyproject.toml` satisfies
`"project" in toml_data and "dependencies" in toml_data["project"]`.
Note this tests key *presence* only: an empty `dependencies = []` counts. -/
def tomlHasDepsKey (doc : TomlDoc) : Bool :=
  match doc.project with
  | none => false
  | some proj => proj.dependencies.isSome

/-- `check_conflicting_sources`: `True` (conflict, message printed) iff the
sibling `pyproject.toml` exists and has a `[project] dependencies` key. -/
def check_conflicting_sources (tomlExists : Bool) (doc : TomlDoc) : Bool :=
  tomlExists && tomlHasDepsKey doc

/-- `_get_file_dependencies`: returns `(deps, toml_data)` plus, for the
embedding, whether the conflict message was printed.  The toml branch is
chosen by `file_path.name.lower() == "pyproject.toml"`; any other name is
read as a requirements file after the conflict check. -/
def _get_file_dependencies (env : Env) :
    Option (PyDict String) × Option TomlDoc × Bool :=
  if pyLower env.fileName = "pyproject.toml" then
    match load_toml_deps env.fileToml with
    | none => (none, none, false)
    | some (deps, doc) => (some deps, some doc, false)
  else
    if check_conflicting_sources env.siblingTomlExists env.siblingToml = true then
      (none, none, true)
    else (some (load_requirements env.fileLines), none, false)

/-- The document update
`toml_data["project"]["dependencies"] = newList` performed by
`_repin_dependencies` on a document whose `project` table is `proj`. -/
def withDeps (doc : TomlDoc) (proj : TomlProject) (newList : List String) : TomlDoc :=
  { doc with project := some ({ proj with dependencies := some newList }) }

/-- The dict comprehension of `_get_upgrade_candidates`:
`{pkg: outdated[pkg] for pkg in outdated if pkg in deps}`. -/
def _get_upgrade_candidates_pure (outdated : PyDict (String × String))
    (deps : PyDict String) : PyDict (String × String) :=
  outdated.foldl
    (fun acc p => if dictContains deps p.1 = true then dictInsert p.1 p.2 acc else acc)
    []

/-- The `finally` block of `_confirm_and_upgrade`:
`if upgrade_file and os.path.exists(upgrade_file): os.remove(upgrade_file)`. -/
def finallyCleanup (st : UpgradeState) : UpgradeState :=
  if st.tmpCreated && st.tmpExists then { st with tmpExists := false } else st

/-- `_confirm_and_upgrade`: the confirmation gate
(`input().strip().lower() != "y"` declines), then the temporary candidate
list, the `pip install --upgrade -r` subprocess via `runCmd`, and the
guaranteed cleanup.  Returns the Python result (`False` = declined, `True` =
upgraded, `CommandError` from a failing upgrade) paired with the final state
of the temporary file. -/
def _confirm_and_upgrade (candidates : PyDict (String × String))
    (userInput : String) (upgradeExit : Nat) :
    Except PyExc Bool × UpgradeState :=
  if pyLower (pyStrip userInput) ≠ "y" then
    (.ok false, { tmpCreated := false, tmpExists := false })
  else
    match runCmd upgradeExit "" false with
    | .error e => (.error e, finallyCleanup { tmpCreated := true, tmpExists := true })
    | .ok _ => (.ok true, finallyCleanup { tmpCreated := true, tmpExists := true })

/-- The dictionary built from `pip freeze` output:
`{line.split("==")[0].lower(): line for line in freeze_output.splitlines()}`. -/
def frozenOf (freezeOutput : String) : PyDict String :=
  (pySplitlines freezeOutput).foldl
    (fun d line => dictInsert (reqKeyOf line) line d) []

/-- The list comprehension of the pyproject branch of `_repin_dependencies`:
`[frozen[pkg] if pkg in candidates else dep for pkg, dep in deps.items()]`;
`frozen[pkg]` raises `KeyError` when the candidate is missing from the freeze
output. -/
def repinTomlList (candidates : PyDict (String × String)) (frozen : PyDict String) :
    PyDict String → Except PyExc (List String)
  | [] => .ok []
  | p :: rest =>
    if dictContains candidates p.1 = true then
      match dictLookup frozen p.1 with
      | some l => (repinTomlList candidates frozen rest).map (fun t => l :: t)
      | none => .error .keyError
    else (repinTomlList candidates frozen rest).map (fun t => p.2 :: t)

/-- `_repin_dependencies`: run `pip freeze` through `runCmd`, build `frozen`,
then branch on `file_path.name == "requirements.txt"` (case-sensitive, exact).
The requirements branch writes `frozen.get(pkg_name, pkg_line)` for *every*
entry; the other branch evaluates the repin list, then subscripts
`toml_data["project"]` — `TypeError` when `toml_data` is `None`, `KeyError`
when the `project` key is absent — and rewrites the document. -/
def _repin_dependencies (fileName : String) (deps : PyDict String)
    (toml_data : Option TomlDoc) (candidates : PyDict (String × String))
    (freezeExit : Nat) (freezeStdout : String) : Except PyExc FileContent :=
  match runCmd freezeExit freezeStdout true with
  | .error e => .error e
  | .ok out =>
    if fileName = "requirements.txt" then
      .ok (.lines (deps.map (fun p => (dictLookup (frozenOf out) p.1).getD p.2)))
    else
      match repinTomlList candidates (frozenOf out) deps with
      | .error e => .error e
      | .ok newList =>
        match toml_data with
        | none => .error .typeError
        | some doc =>
          match doc.project with
          | none => .error .keyError
          | some proj => .ok (.toml (withDeps doc proj newList))

/-! ## The `main` workflow, staged -/

/-- Tail of `main` from `_repin_dependencies` on.  A `CommandError` from the
freeze subprocess is caught by `main`'s handler; `TypeError`/`KeyError` are
not. -/
def repinStage (env : Env) (deps : PyDict String) (toml_data : Option TomlDoc)
    (pc : Bool) (cands : PyDict (String × String)) (st : UpgradeState) : RunResult :=
  match _repin_dependencies env.fileName deps toml_data cands env.freezeExit env.freezeStdout with
  | .error e =>
    { outcome := if e = .commandError then .caughtCommandError else .uncaught e,
      depsUsed := some deps, queryPerformed := true, gateReached := true,
      upgradeRun := true, repinReached := true, printedConflict := pc,
      tmpCreated := st.tmpCreated, tmpExists := st.tmpExists }
  | .ok content =>
    { outcome := .returned, written := some content,
      depsUsed := some deps, queryPerformed := true, gateReached := true,
      upgradeRun := true, repinReached := true, printedConflict := pc,
      tmpCreated := st.tmpCreated, tmpExists := st.tmpExists }

/-- Tail of `main` from `_confirm_and_upgrade` on. -/
def gateStage (env : Env) (deps : PyDict String) (toml_data : Option TomlDoc)
    (pc : Bool) (cands : PyDict (String × String)) : RunResult :=
  match _confirm_and_upgrade cands env.userInput env.upgradeExit with
  | (.ok false, st) =>
    { outcome := .returned, depsUsed := some deps, queryPerformed := true,
      gateReached := true, printedCancelled := true, printedConflict := pc,
      tmpCreated := st.tmpCreated, tmpExists := st.tmpExists }
  | (.error e, st) =>
    { outcome := if e = .commandError then .caughtCommandError else .uncaught e,
      depsUsed := some deps, queryPerformed := true, gateReached := true,
      upgradeRun := true, printedConflict := pc,
      tmpCreated := st.tmpCreated, tmpExists := st.tmpExists }
  | (.ok true, st) => repinStage env deps toml_data pc cands st

/-- Tail of `main` after `_get_file_dependencies` produced a dict: the
falsiness check `if not deps`, the outdated query, the candidate
intersection, and the nothing-to-do early return. -/
def afterDeps (env : Env) (deps : PyDict String) (toml_data : Option TomlDoc)
    (pc : Bool) : RunResult :=
  if deps = [] then
    { outcome := .returned, depsUsed := some deps, printedConflict := pc }
  else
    match list_outdatedRun env.query with
    | .error e =>
      { outcome := if e = .commandError then .caughtCommandError else .uncaught e,
        depsUsed := some deps, queryPerformed := true, printedConflict := pc }
    | .ok outdated =>
      if _get_upgrade_candidates_pure outdated deps = [] then
        { outcome := .returned, depsUsed := some deps, queryPerformed := true,
          printedNothingToDo := true, printedConflict := pc }
      else gateStage env deps toml_data pc (_get_upgrade_candidates_pure outdated deps)

/-- `main()`: existence and directory checks, the
`fn = file_path.name.lower().split(".")` file-type check (whose `fn[1]`
raises `IndexError` on dot-free names), `_get_file_dependencies`, and the
rest of the workflow.  The surrounding `try` catches exactly `CommandError`. -/
def runMain (env : Env) : RunResult :=
  if env.fileExists = false then { outcome := .returned }
  else if env.isDir = true then { outcome := .returned }
  else
    match pySplitDot (pyLower env.fileName) with
    | [] => { outcome := .uncaught .indexError }
    | [_] => { outcome := .uncaught .indexError }
    | first :: second :: _ =>
      if second = "toml" ∧ first ≠ "pyproject" then { outcome := .returned }
      else
        match _get_file_dependencies env with
        | (none, _, pc) => { outcome := .returned, printedConflict := pc }
        | (some deps, toml_data, pc) => afterDeps env deps toml_data pc

/-! ## Derived definitions used by the verification -/

/-- Generic form of every dict comprehension in the source that stores a
value `v` under a key `f v`. -/
def buildFrom (f : String → String) (vs : List String) : PyDict String :=
  vs.foldl (fun d v => dictInsert (f v) v d) []

/-- The per-line preprocessing of `load_requirements`: the stripped line when
it is kept, `none` when it is blank or a comment. -/
def prepLine (l : String) : Option String :=
  if pyStrip l ≠ "" ∧ startsWithHash (pyStrip l) = false then some (pyStrip l)
  else none

/-- Parsing a manifest of either format into the Dependency Entry mapping,
exactly as the Manifest Reader does. -/
def parseContent : FileContent → Option (PyDict String)
  | .lines ls => some (load_requirements ls)
  | .toml doc => (load_toml_deps doc).map (fun r => r.1)

/-- Serializing a Dependency Entry mapping back without any upgrade, through
the Repinner itself: no candidates and an empty freeze output, so every entry
is written as its recorded declaration string. -/
def serializeUnchanged : FileContent → PyDict String → Except PyExc FileContent
  | .lines _, d => _repin_dependencies "requirements.txt" d none [] 0 ""
  | .toml doc, d => _repin_dependencies "pyproject.toml" d (some doc) [] 0 ""

/-! ## Concrete environments for witnesses and counterexamples -/

/-- A complete, realistic run: line-based manifest with two pinned
dependencies of which one is outdated, affirmative confirmation, successful
upgrade, and a freeze output that lists both installed packages — the
non-candidate with different casing than its declaration. -/
def envRepin : Env :=
  { fileName := "requirements.txt", fileExists := true, isDir := false,
    fileLines := ["requests==2.0.0", "Click==7.0"],
    fileToml := ⟨none⟩, siblingTomlExists := false, siblingToml := ⟨none⟩,
    query := ⟨true, 0, some [⟨"requests", "2.0.0", "2.31.0"⟩]⟩,
    userInput := "y", upgradeExit := 0, freezeExit := 0,
    freezeStdout := "requests==2.31.0\nclick==7.0" }

/-- `envRepin` with a line-based manifest whose name is not exactly
`requirements.txt`. -/
def envMisnamed : Env := { envRepin with fileName := "reqs.txt" }

/-- `envRepin` with a sibling `pyproject.toml` whose `[project]` table has an
*empty* `dependencies` list. -/
def envEmptySection : Env :=
  { envRepin with siblingTomlExists := true, siblingToml := ⟨some ⟨some []⟩⟩ }

/-- `envRepin` with an outdated-listing subprocess that exits non-zero. -/
def envQueryFail : Env := { envRepin with query := ⟨true, 1, none⟩ }

/-- `envRepin` with a declining answer at the confirmation gate. -/
def envDecline : Env := { envRepin with userInput := "n" }

/-- `envRepin` with a failing upgrade subprocess. -/
def envUpgradeFail : Env := { envRepin with upgradeExit := 1 }

/-- `envRepin` with an outdated listing disjoint from the declared
dependencies. -/
def envDisjoint : Env :=
  { envRepin with query := ⟨true, 0, some [⟨"numpy", "1.0", "2.0"⟩]⟩ }

/-- `envRepin` with a dot-free file name. -/
def envNoDot : Env := { envRepin with fileName := "requirements" }

/-! ## Dictionary lemmas -/

theorem dictContains_iff_mem_keys {β : Type} (d : PyDict β) (k : String) :
    dictContains d k = true ↔ k ∈ d.map Prod.fst := by
  induction d with
  | nil => simp [dictContains, dictLookup]
  | cons p rest ih =>
    simp only [dictContains, dictLookup, List.map_cons, List.mem_cons]
    by_cases h : p.1 = k
    · simp [h]
    · rw [if_neg h]
      simp only [dictContains] at ih
      rw [ih]
      constructor
      · exact Or.inr
      · rintro (he | hm)
        · exact absurd he.symm h
        · exact hm

theorem dictInsert_mem {β : Type} {k : String} {v : β} {d : PyDict β}
    {p : String × β} (hp : p ∈ dictInsert k v d) : p ∈ d ∨ p = (k, v) := by
  unfold dictInsert at hp
  split at hp
  · rcases List.mem_map.1 hp with ⟨q, hq, hqe⟩
    by_cases h : q.1 = k
    · rw [if_pos h] at hqe
      exact Or.inr hqe.symm
    · rw [if_neg h] at hqe
      exact Or.inl (hqe ▸ hq)
  · rcases List.mem_append.1 hp with h | h
    · exact Or.inl h
    · exact Or.inr (List.mem_singleton.1 h)

theorem dictInsert_of_not_contains {β : Type} {k : String} (v : β) {d : PyDict β}
    (h : dictContains d k = false) : dictInsert k v d = d ++ [(k, v)] := by
  unfold dictInsert
  rw [h]
  simp

theorem dictInsert_keys_of_contains {β : Type} {k : String} (v : β) {d : PyDict β}
    (h : dictContains d k = true) :
    (dictInsert k v d).map Prod.fst = d.map Prod.fst := by
  unfold dictInsert
  rw [h, if_pos rfl, List.map_map]
  apply List.map_congr_left
  intro p _
  by_cases hp : p.1 = k
  · simp [hp]
  · simp [hp]

theorem dictInsert_keys_nodup {β : Type} {k : String} (v : β) {d : PyDict β}
    (h : (d.map Prod.fst).Nodup) : ((dictInsert k v d).map Prod.fst).Nodup := by
  cases hc : dictContains d k
  · rw [dictInsert_of_not_contains v hc]
    have hk : k ∉ d.map Prod.fst := by
      rw [← dictContains_iff_mem_keys, hc]
      simp
    simp only [List.map_append, List.map_cons, List.map_nil]
    rw [List.nodup_append]
    refine ⟨h, List.nodup_singleton k, fun a ha hae => hk ?_⟩
    rw [List.mem_singleton] at hae
    exact hae ▸ ha
  · rw [dictInsert_keys_of_contains v hc]
    exact h

/-! ## Properties of the dict comprehensions -/

theorem buildFrom_go_prop (f : String → String) (Q : String × String → Prop) :
    ∀ (vs : List String) (acc : PyDict String),
      (∀ v ∈ vs, Q (f v, v)) → (∀ p ∈ acc, Q p) →
      ∀ p ∈ vs.foldl (fun d v => dictInsert (f v) v d) acc, Q p := by
  intro vs
  induction vs with
  | nil => intro acc _ hacc p hp; exact hacc p hp
  | cons v vs ih =>
    intro acc hvs hacc p hp
    simp only [List.foldl_cons] at hp
    refine ih _ (fun w hw => hvs w (List.mem_cons_of_mem _ hw)) ?_ p hp
    intro q hq
    rcases dictInsert_mem hq with h | h
    · exact hacc q h
    · exact h ▸ hvs v (List.mem_cons_self _ _)

theorem buildFrom_prop (f : String → String) (Q : String × String → Prop)
    (vs : List String) (hvs : ∀ v ∈ vs, Q (f v, v)) :
    ∀ p ∈ buildFrom f vs, Q p :=
  buildFrom_go_prop f Q vs [] hvs (by simp)

theorem buildFrom_key (f : String → String) (vs : List String) :
    ∀ p ∈ buildFrom f vs, p.1 = f p.2 :=
  buildFrom_prop f (fun p => p.1 = f p.2) vs (fun _ _ => rfl)

theorem buildFrom_val_mem (f : String → String) (vs : List String) :
    ∀ p ∈ buildFrom f vs, p.2 ∈ vs :=
  buildFrom_prop f (fun p => p.2 ∈ vs) vs (fun _ hv => hv)

theorem buildFrom_go_nodup (f : String → String) :
    ∀ (vs : List String) (acc : PyDict String),
      (acc.map Prod.fst).Nodup →
      (((vs.foldl (fun d v => dictInsert (f v) v d) acc)).map Prod.fst).Nodup := by
  intro vs
  induction vs with
  | nil => intro acc hacc; exact hacc
  | cons v vs ih =>
    intro acc hacc
    simp only [List.foldl_cons]
    exact ih _ (dictInsert_keys_nodup v hacc)

theorem buildFrom_keys_nodup (f : String → String) (vs : List String) :
    ((buildFrom f vs).map Prod.fst).Nodup :=
  buildFrom_go_nodup f vs [] (by simp)

theorem rebuild_go (f : String → String) :
    ∀ (d acc : PyDict String),
      (((acc ++ d).map Prod.fst).Nodup) → (∀ p ∈ d, p.1 = f p.2) →
      (d.map Prod.snd).foldl (fun a v => dictInsert (f v) v a) acc = acc ++ d := by
  intro d
  induction d with
  | nil => intro acc _ _; simp
  | cons p d ih =>
    intro acc hnd hkeys
    simp only [List.map_cons, List.foldl_cons]
    have hk : f p.2 = p.1 := (hkeys p (List.mem_cons_self _ _)).symm
    have hnotin : dictContains acc p.1 = false := by
      have : p.1 ∉ acc.map Prod.fst := by
        intro hmem
        simp only [List.map_append, List.map_cons, List.nodup_append] at hnd
        exact hnd.2.2 hmem (List.mem_cons_self _ _)
      rw [Bool.eq_false_iff]
      intro hc
      exact this ((dictContains_iff_mem_keys acc p.1).1 hc)
    rw [hk, dictInsert_of_not_contains p.2 hnotin]
    have hre : acc ++ [(p.1, p.2)] = acc ++ [p] := by simp
    rw [hre, ih (acc ++ [p]) (by simpa using hnd) (fun q hq => hkeys q (List.mem_cons_of_mem _ hq))]
    simp

theorem buildFrom_roundtrip (f : String → String) (vs : List String) :
    buildFrom f ((buildFrom f vs).map Prod.snd) = buildFrom f vs := by
  have h := rebuild_go f (buildFrom f vs) [] (by simpa using buildFrom_keys_nodup f vs)
    (buildFrom_key f vs)
  simpa [buildFrom] using h

/-! ## Idempotence of `strip` -/

theorem dropWhile_eq_self_of_prefix {p : Char → Bool} :
    ∀ {l l' : List Char}, l.dropWhile p = l → l' <+: l → l'.dropWhile p = l' := by
  intro l l' h hp
  cases l' with
  | nil => rfl
  | cons c t =>
    obtain ⟨r, hr⟩ := hp
    have hc : p c = false := by
      by_contra hpc
      rw [Bool.not_eq_false] at hpc
      rw [← hr] at h
      simp only [List.cons_append, List.dropWhile_cons_of_pos hpc] at h
      have hlen := (List.dropWhile_sublist (l := t ++ r) p).length_le
      rw [h] at hlen
      simp at hlen
    simp [List.dropWhile_cons, hc]

theorem stripL_dropWhile (l : List Char) : (stripL l).dropWhile wsChar = stripL l := by
  have hsuf : ((l.dropWhile wsChar).reverse.dropWhile wsChar)
      <:+ (l.dropWhile wsChar).reverse := List.dropWhile_suffix _
  have hpre := List.reverse_prefix.2 hsuf
  rw [List.reverse_reverse] at hpre
  exact dropWhile_eq_self_of_prefix (List.dropWhile_idempotent wsChar l) hpre

theorem stripL_reverse_dropWhile (l : List Char) :
    (stripL l).reverse.dropWhile wsChar = (stripL l).reverse := by
  unfold stripL
  rw [List.reverse_reverse]
  exact List.dropWhile_idempotent wsChar _

theorem stripL_idem (l : List Char) : stripL (stripL l) = stripL l :=
  calc stripL (stripL l)
      = (((stripL l).dropWhile wsChar).reverse.dropWhile wsChar).reverse := rfl
    _ = ((stripL l).reverse.dropWhile wsChar).reverse := by rw [stripL_dropWhile]
    _ = ((stripL l).reverse).reverse := by rw [stripL_reverse_dropWhile]
    _ = stripL l := List.reverse_reverse _

theorem pyStrip_idem (s : String) : pyStrip (pyStrip s) = pyStrip s :=
  congrArg String.mk (stripL_idem s.data)

/-! ## `load_requirements` as a generic dict comprehension -/

theorem load_requirements_go (ls : List String) :
    ∀ acc : PyDict String,
      ls.foldl (fun deps rawLine =>
        if pyStrip rawLine ≠ "" ∧ startsWithHash (pyStrip rawLine) = false then
          dictInsert (reqKeyOf (pyStrip rawLine)) (pyStrip rawLine) deps
        else deps) acc
      = (ls.filterMap prepLine).foldl (fun d v => dictInsert (reqKeyOf v) v d) acc := by
  induction ls with
  | nil => intro acc; rfl
  | cons rl ls ih =>
    intro acc
    by_cases h : pyStrip rl ≠ "" ∧ startsWithHash (pyStrip rl) = false
    · have hp : prepLine rl = some (pyStrip rl) := by unfold prepLine; rw [if_pos h]
      simp only [List.foldl_cons, List.filterMap_cons, hp, if_pos h]
      exact ih _
    · have hp : prepLine rl = none := by unfold prepLine; rw [if_neg h]
      simp only [List.foldl_cons, List.filterMap_cons, hp, if_neg h]
      exact ih _

theorem load_requirements_eq (ls : List String) :
    load_requirements ls = buildFrom reqKeyOf (ls.filterMap prepLine) :=
  load_requirements_go ls []

theorem prepLine_stable {v : String} (hv : ∃ l, prepLine l = some v) :
    prepLine v = some v := by
  obtain ⟨l, hl⟩ := hv
  unfold prepLine at hl
  by_cases h : pyStrip l ≠ "" ∧ startsWithHash (pyStrip l) = false
  · rw [if_pos h] at hl
    have hv : pyStrip l = v := Option.some.inj hl
    subst hv
    unfold prepLine
    rw [pyStrip_idem l, if_pos h]
  · rw [if_neg h] at hl
    exact absurd hl (by simp)

theorem filterMap_prepLine_self {vs : List String}
    (h : ∀ v ∈ vs, prepLine v = some v) : vs.filterMap prepLine = vs := by
  induction vs with
  | nil => rfl
  | cons v vs ih =>
    simp only [List.filterMap_cons, h v (List.mem_cons_self _ _)]
    rw [ih (fun w hw => h w (List.mem_cons_of_mem _ hw))]

/-! ## Serialization without upgrade -/

theorem serialize_lines (ls : List String) (d : PyDict String) :
    serializeUnchanged (.lines ls) d = .ok (.lines (d.map Prod.snd)) := rfl

theorem repinTomlList_no_cands (frozen : PyDict String) :
    ∀ d : PyDict String, repinTomlList [] frozen d = .ok (d.map Prod.snd) := by
  intro d
  induction d with
  | nil => rfl
  | cons p rest ih =>
    unfold repinTomlList
    rw [if_neg (by simp [dictContains, dictLookup]), ih]
    rfl

theorem serialize_toml (doc : TomlDoc) (proj : TomlProject)
    (h : doc.project = some proj) (d : PyDict String) :
    serializeUnchanged (.toml doc) d
      = .ok (.toml (withDeps doc proj (d.map Prod.snd))) := by
  have hrc : runCmd 0 "" true = Except.ok "" := rfl
  simp [serializeUnchanged, _repin_dependencies, hrc, repinTomlList_no_cands, h]

theorem load_requirements_reparse (ls : List String) :
    load_requirements ((load_requirements ls).map Prod.snd) = load_requirements ls := by
  have h1 := load_requirements_eq ls
  have hvals : ∀ v ∈ (load_requirements ls).map Prod.snd, prepLine v = some v := by
    intro v hv
    rcases List.mem_map.1 hv with ⟨p, hp, rfl⟩
    have hmem := buildFrom_val_mem reqKeyOf (ls.filterMap prepLine) p (h1 ▸ hp)
    rcases List.mem_filterMap.1 hmem with ⟨a, _, hpa⟩
    exact prepLine_stable ⟨a, hpa⟩
  calc load_requirements ((load_requirements ls).map Prod.snd)
      = buildFrom reqKeyOf (((load_requirements ls).map Prod.snd).filterMap prepLine) :=
        load_requirements_eq _
    _ = buildFrom reqKeyOf ((load_requirements ls).map Prod.snd) := by
        rw [filterMap_prepLine_self hvals]
    _ = buildFrom reqKeyOf ((buildFrom reqKeyOf (ls.filterMap prepLine)).map Prod.snd) := by
        rw [h1]
    _ = buildFrom reqKeyOf (ls.filterMap prepLine) := buildFrom_roundtrip _ _
    _ = load_requirements ls := h1.symm

theorem tomlDepsDict_reparse (ds : List String) :
    tomlDepsDict ((tomlDepsDict ds).map Prod.snd) = tomlDepsDict ds :=
  buildFrom_roundtrip tomlKeyOf ds

/-- C8: for every manifest of either format, parsing it into the Dependency
Entry mapping, serializing that mapping back without any upgrade (each entry
written as its recorded declaration string, through the Repinner with no
candidates and empty freeze output), and parsing the result again yields the
identical Dependency Entry mapping. -/
theorem parse_serialize_reparse (m : FileContent) (d : PyDict String)
    (h : parseContent m = some d) :
    ∃ m2, serializeUnchanged m d = .ok m2 ∧ parseContent m2 = some d := by
  cases m with
  | lines ls =>
    refine ⟨.lines (d.map Prod.snd), serialize_lines ls d, ?_⟩
    have hd : load_requirements ls = d := Option.some.inj h
    subst hd
    simp only [parseContent]
    rw [load_requirements_reparse]
  | toml doc =>
    simp only [parseContent] at h
    cases hld : load_toml_deps doc with
    | none => rw [hld] at h; exact absurd h (by simp)
    | some pr =>
      rw [hld] at h
      simp only [Option.map_some'] at h
      unfold load_toml_deps at hld
      cases hpj : doc.project with
      | none => rw [hpj] at hld; exact absurd hld (by simp)
      | some proj =>
        simp only [hpj] at hld
        cases hds : proj.dependencies with
        | none =>
          simp only [hds] at hld
          exact absurd hld (by simp)
        | some ds =>
          simp only [hds] at hld
          have hpr : (tomlDepsDict ds, doc) = pr := Option.some.inj hld
          have hd : tomlDepsDict ds = d := by rw [← Option.some.inj h, ← hpr]
          refine ⟨_, serialize_toml doc proj hpj d, ?_⟩
          simp only [parseContent, load_toml_deps, withDeps, Option.map_some']
          rw [← hd, tomlDepsDict_reparse]

/-- Witness for C8 at a concrete two-entry requirements manifest. -/
theorem parse_serialize_reparse_witness :
    parseContent (.lines ["requests==2.0.0", "Click==7.0"])
        = some [("requests", "requests==2.0.0"), ("click", "Click==7.0")]
      ∧ ∃ m2, serializeUnchanged (.lines ["requests==2.0.0", "Click==7.0"])
            [("requests", "requests==2.0.0"), ("click", "Click==7.0")] = .ok m2
          ∧ parseContent m2
            = some [("requests", "requests==2.0.0"), ("click", "Click==7.0")] :=
  ⟨by decide, parse_serialize_reparse _ _ (by decide)⟩

/-! ## Computation lemmas for the staged workflow -/

theorem runMain_eq_afterDeps (env : Env) (deps : PyDict String)
    (td : Option TomlDoc) (pc : Bool) (first second : String) (rest : List String)
    (h1 : env.fileExists = true) (h2 : env.isDir = false)
    (h3 : pySplitDot (pyLower env.fileName) = first :: second :: rest)
    (h4 : ¬(second = "toml" ∧ first ≠ "pyproject"))
    (h5 : _get_file_dependencies env = (some deps, td, pc)) :
    runMain env = afterDeps env deps td pc := by
  unfold runMain
  simp only [h1, h2, h3, h5]
  rw [if_neg h4]
  simp

theorem gfd_line (env : Env) (h : ¬ pyLower env.fileName = "pyproject.toml")
    (hc : check_conflicting_sources env.siblingTomlExists env.siblingToml = false) :
    _get_file_dependencies env = (some (load_requirements env.fileLines), none, false) := by
  unfold _get_file_dependencies
  rw [if_neg h, hc]
  simp

theorem gfd_conflict (env : Env) (h : ¬ pyLower env.fileName = "pyproject.toml")
    (hc : check_conflicting_sources env.siblingTomlExists env.siblingToml = true) :
    _get_file_dependencies env = (none, none, true) := by
  unfold _get_file_dependencies
  rw [if_neg h, hc]
  simp

theorem afterDeps_eq_gateStage (env : Env) (deps : PyDict String)
    (td : Option TomlDoc) (pc : Bool) (outd : PyDict (String × String))
    (hne : deps ≠ [])
    (hq : list_outdatedRun env.query = .ok outd)
    (hcne : _get_upgrade_candidates_pure outd deps ≠ []) :
    afterDeps env deps td pc
      = gateStage env deps td pc (_get_upgrade_candidates_pure outd deps) := by
  unfold afterDeps
  simp only [hq]
  rw [if_neg hne, if_neg hcne]

theorem confirm_decline (cands : PyDict (String × String)) (input : String)
    (e : Nat) (h : ¬ pyLower (pyStrip input) = "y") :
    _confirm_and_upgrade cands input e
      = (.ok false, { tmpCreated := false, tmpExists := false }) := by
  unfold _confirm_and_upgrade
  rw [if_pos h]

theorem confirm_fail (cands : PyDict (String × String)) (input : String)
    (e : Nat) (h : pyLower (pyStrip input) = "y") (he : e ≠ 0) :
    _confirm_and_upgrade cands input e
      = (.error .commandError, { tmpCreated := true, tmpExists := false }) := by
  unfold _confirm_and_upgrade
  rw [if_neg (fun hC => hC h)]
  have hrc : runCmd e "" false = .error .commandError := by
    unfold runCmd
    rw [if_pos he]
  rw [hrc]
  rfl

theorem confirm_ok (cands : PyDict (String × String)) (input : String)
    (h : pyLower (pyStrip input) = "y") :
    _confirm_and_upgrade cands input 0
      = (.ok true, { tmpCreated := true, tmpExists := false }) := by
  unfold _confirm_and_upgrade
  rw [if_neg (fun hC => hC h)]
  rfl

theorem gateStage_decline (env : Env) (deps : PyDict String) (td : Option TomlDoc)
    (pc : Bool) (cands : PyDict (String × String))
    (h : ¬ pyLower (pyStrip env.userInput) = "y") :
    gateStage env deps td pc cands
      = { outcome := .returned, depsUsed := some deps, queryPerformed := true,
          gateReached := true, printedCancelled := true, printedConflict := pc,
          tmpCreated := false, tmpExists := false } := by
  unfold gateStage
  rw [confirm_decline _ _ _ h]

theorem gateStage_fail (env : Env) (deps : PyDict String) (td : Option TomlDoc)
    (pc : Bool) (cands : PyDict (String × String))
    (h : pyLower (pyStrip env.userInput) = "y") (he : env.upgradeExit ≠ 0) :
    gateStage env deps td pc cands
      = { outcome := .caughtCommandError, depsUsed := some deps,
          queryPerformed := true, gateReached := true, upgradeRun := true,
          printedConflict := pc, tmpCreated := true, tmpExists := false } := by
  unfold gateStage
  rw [confirm_fail _ _ _ h he]
  rfl

theorem gateStage_proceed (env : Env) (deps : PyDict String) (td : Option TomlDoc)
    (pc : Bool) (cands : PyDict (String × String))
    (h : pyLower (pyStrip env.userInput) = "y") (he : env.upgradeExit = 0) :
    gateStage env deps td pc cands
      = repinStage env deps td pc cands { tmpCreated := true, tmpExists := false } := by
  unfold gateStage
  rw [he, confirm_ok _ _ h]

theorem repinStage_fields (env : Env) (deps : PyDict String) (td : Option TomlDoc)
    (pc : Bool) (cands : PyDict (String × String)) (st : UpgradeState) :
    (repinStage env deps td pc cands st).gateReached = true
    ∧ (repinStage env deps td pc cands st).upgradeRun = true
    ∧ (repinStage env deps td pc cands st).repinReached = true := by
  unfold repinStage
  split <;> exact ⟨rfl, rfl, rfl⟩

theorem gateReached_inv (env : Env) (h : (runMain env).gateReached = true) :
    ∃ deps td pc cands, runMain env = gateStage env deps td pc cands := by
  revert h
  unfold runMain afterDeps
  repeat' split
  all_goals intro h
  all_goals first
    | exact ⟨_, _, _, _, rfl⟩
    | simp at h

theorem repinStage_pc_deps (env : Env) (deps : PyDict String) (td : Option TomlDoc)
    (pc : Bool) (cands : PyDict (String × String)) (st : UpgradeState) :
    (repinStage env deps td pc cands st).printedConflict = pc
    ∧ (repinStage env deps td pc cands st).depsUsed = some deps := by
  unfold repinStage
  split <;> exact ⟨rfl, rfl⟩

theorem gateStage_pc_deps (env : Env) (deps : PyDict String) (td : Option TomlDoc)
    (pc : Bool) (cands : PyDict (String × String)) :
    (gateStage env deps td pc cands).printedConflict = pc
    ∧ (gateStage env deps td pc cands).depsUsed = some deps := by
  unfold gateStage
  split
  all_goals first
    | exact ⟨rfl, rfl⟩
    | apply repinStage_pc_deps

theorem afterDeps_pc_deps (env : Env) (deps : PyDict String) (td : Option TomlDoc)
    (pc : Bool) :
    (afterDeps env deps td pc).printedConflict = pc
    ∧ (afterDeps env deps td pc).depsUsed = some deps := by
  unfold afterDeps
  repeat' split
  all_goals first
    | exact ⟨rfl, rfl⟩
    | apply gateStage_pc_deps

theorem runMain_eq_of_no_deps (env : Env) (td : Option TomlDoc) (pc : Bool)
    (first second : String) (rest : List String)
    (h1 : env.fileExists = true) (h2 : env.isDir = false)
    (h3 : pySplitDot (pyLower env.fileName) = first :: second :: rest)
    (h4 : ¬(second = "toml" ∧ first ≠ "pyproject"))
    (h5 : _get_file_dependencies env = (none, td, pc)) :
    runMain env = { outcome := .returned, printedConflict := pc } := by
  unfold runMain
  simp only [h1, h2, h3, h5]
  rw [if_neg h4]
  simp

/-! ## Membership in the candidate intersection -/

theorem dictContains_of_mem {β : Type} :
    ∀ {d : PyDict β} {p : String × β}, p ∈ d → dictContains d p.1 = true := by
  intro d
  induction d with
  | nil => intro p hp; cases hp
  | cons q rest ih =>
    intro p hp
    unfold dictContains dictLookup
    by_cases h : q.1 = p.1
    · rw [if_pos h]; rfl
    · rw [if_neg h]
      rcases List.mem_cons.1 hp with rfl | hm
      · exact absurd rfl h
      · exact ih hm

theorem dictContains_cons_iff {β : Type} (q : String × β) (rest : PyDict β)
    (k : String) :
    dictContains (q :: rest) k = true ↔ (q.1 = k ∨ dictContains rest k = true) := by
  simp only [dictContains, dictLookup]
  by_cases h : q.1 = k
  · rw [if_pos h]
    simp [h]
  · rw [if_neg h]
    constructor
    · intro hh; exact Or.inr hh
    · rintro (he | hh)
      · exact absurd he h
      · exact hh

theorem dictContains_insert_iff {β : Type} (k k' : String) (v : β) (d : PyDict β) :
    dictContains (dictInsert k' v d) k = true
      ↔ (dictContains d k = true ∨ k = k') := by
  cases hc : dictContains d k'
  · rw [dictInsert_of_not_contains v hc]
    rw [dictContains_iff_mem_keys, dictContains_iff_mem_keys]
    simp
  · constructor
    · intro hh
      have hm := (dictContains_iff_mem_keys _ k).1 hh
      rw [dictInsert_keys_of_contains v hc] at hm
      exact Or.inl ((dictContains_iff_mem_keys d k).2 hm)
    · rintro (hh | rfl)
      · apply (dictContains_iff_mem_keys _ k).2
        rw [dictInsert_keys_of_contains v hc]
        exact (dictContains_iff_mem_keys d k).1 hh
      · apply (dictContains_iff_mem_keys _ _).2
        rw [dictInsert_keys_of_contains v hc]
        exact (dictContains_iff_mem_keys d _).1 hc

theorem cands_go (deps : PyDict String) :
    ∀ (outd : PyDict (String × String)) (acc : PyDict (String × String)) (k : String),
      dictContains (outd.foldl (fun acc p =>
          if dictContains deps p.1 = true then dictInsert p.1 p.2 acc else acc) acc) k
        = true
      ↔ (dictContains acc k = true
         ∨ (dictContains outd k = true ∧ dictContains deps k = true)) := by
  intro outd
  induction outd with
  | nil =>
    intro acc k
    simp [dictContains, dictLookup]
  | cons p outd ih =>
    intro acc k
    simp only [List.foldl_cons]
    by_cases hd : dictContains deps p.1 = true
    · rw [if_pos hd, ih (dictInsert p.1 p.2 acc) k, dictContains_insert_iff,
        dictContains_cons_iff]
      constructor
      · rintro ((ha | rfl) | ⟨ho, hk⟩)
        · exact Or.inl ha
        · exact Or.inr ⟨Or.inl rfl, hd⟩
        · exact Or.inr ⟨Or.inr ho, hk⟩
      · rintro (ha | ⟨(he | ho), hk⟩)
        · exact Or.inl (Or.inl ha)
        · exact Or.inl (Or.inr he.symm)
        · exact Or.inr ⟨ho, hk⟩
    · rw [if_neg hd, ih acc k, dictContains_cons_iff]
      constructor
      · rintro (ha | ⟨ho, hk⟩)
        · exact Or.inl ha
        · exact Or.inr ⟨Or.inr ho, hk⟩
      · rintro (ha | ⟨(he | ho), hk⟩)
        · exact Or.inl ha
        · exact absurd (by rwa [← he] at hk) hd
        · exact Or.inr ⟨ho, hk⟩

theorem cands_contains_iff (outd : PyDict (String × String)) (deps : PyDict String)
    (k : String) :
    dictContains (_get_upgrade_candidates_pure outd deps) k = true
      ↔ (dictContains outd k = true ∧ dictContains deps k = true) := by
  unfold _get_upgrade_candidates_pure
  rw [cands_go deps outd [] k]
  simp [dictContains, dictLookup]

theorem list_outdated_go :
    ∀ (recs : List OutdatedPkg) (acc : PyDict (String × String)) (k : String),
      dictContains (recs.foldl (fun d r =>
          dictInsert (pyLower r.name) (r.version, r.latest_version) d) acc) k = true
      ↔ (dictContains acc k = true ∨ ∃ r ∈ recs, pyLower r.name = k) := by
  intro recs
  induction recs with
  | nil => intro acc k; simp
  | cons r recs ih =>
    intro acc k
    simp only [List.foldl_cons]
    rw [ih, dictContains_insert_iff]
    constructor
    · rintro ((ha | hk) | ⟨s, hs, hsk⟩)
      · exact Or.inl ha
      · exact Or.inr ⟨r, List.mem_cons_self _ _, hk.symm⟩
      · exact Or.inr ⟨s, List.mem_cons_of_mem _ hs, hsk⟩
    · rintro (ha | ⟨s, hs, hsk⟩)
      · exact Or.inl (Or.inl ha)
      · rcases List.mem_cons.1 hs with rfl | hm
        · exact Or.inl (Or.inr hsk.symm)
        · exact Or.inr ⟨s, hm, hsk⟩

theorem list_outdated_contains_iff (recs : List OutdatedPkg) (k : String) :
    dictContains (list_outdated recs) k = true ↔ ∃ r ∈ recs, pyLower r.name = k := by
  unfold list_outdated
  rw [list_outdated_go recs [] k]
  simp [dictContains, dictLookup]

theorem cands_empty_go (deps : PyDict String) :
    ∀ outd : PyDict (String × String),
      (∀ p ∈ outd, dictContains deps p.1 = false) →
      outd.foldl (fun acc p =>
        if dictContains deps p.1 = true then dictInsert p.1 p.2 acc else acc) [] = [] := by
  intro outd
  induction outd with
  | nil => intro _; rfl
  | cons p outd ih =>
    intro h
    simp only [List.foldl_cons]
    rw [if_neg (by simp [h p (List.mem_cons_self _ _)])]
    exact ih (fun q hq => h q (List.mem_cons_of_mem _ hq))

theorem cands_empty_of_disjoint (outd : PyDict (String × String))
    (deps : PyDict String)
    (h : ∀ k, ¬(dictContains outd k = true ∧ dictContains deps k = true)) :
    _get_upgrade_candidates_pure outd deps = [] := by
  unfold _get_upgrade_candidates_pure
  apply cands_empty_go
  intro p hp
  by_cases hd : dictContains deps p.1 = true
  · exact absurd ⟨dictContains_of_mem hp, hd⟩ (h p.1)
  · exact Bool.eq_false_iff.2 hd

/-! ## Claim C3: the Confirmation Gate -/

/-- C3: at the Confirmation Gate, exactly the inputs whose stripped,
lowercased form equals `"y"` cause the upgrade command to be invoked; for
every other input line the workflow terminates normally without invoking the
upgrade command or the Repinner, and nothing is ever written to the manifest
file, which therefore stays byte-identical. -/
theorem confirmation_gate_exact (env : Env)
    (h : (runMain env).gateReached = true) :
    ((runMain env).upgradeRun = true ↔ pyLower (pyStrip env.userInput) = "y")
    ∧ (¬ pyLower (pyStrip env.userInput) = "y" →
        (runMain env).upgradeRun = false ∧ (runMain env).repinReached = false
        ∧ (runMain env).written = none ∧ (runMain env).outcome = .returned) := by
  obtain ⟨deps, td, pc, cands, heq⟩ := gateReached_inv env h
  rw [heq]
  by_cases hy : pyLower (pyStrip env.userInput) = "y"
  · refine ⟨⟨fun _ => hy, fun _ => ?_⟩, fun hny => absurd hy hny⟩
    by_cases he : env.upgradeExit = 0
    · rw [gateStage_proceed env deps td pc cands hy he]
      exact (repinStage_fields env deps td pc cands _).2.1
    · rw [gateStage_fail env deps td pc cands hy he]
  · rw [gateStage_decline env deps td pc cands hy]
    exact ⟨⟨fun hu => absurd hu (by simp), fun hyy => absurd hyy hy⟩,
      fun _ => ⟨rfl, rfl, rfl, rfl⟩⟩

/-- Witness for C3: a declining answer (`"n"`) at a reached gate leaves
everything untouched. -/
theorem confirmation_gate_exact_witness :
    (runMain envDecline).gateReached = true
    ∧ (((runMain envDecline).upgradeRun = true
          ↔ pyLower (pyStrip envDecline.userInput) = "y")
        ∧ (¬ pyLower (pyStrip envDecline.userInput) = "y" →
            (runMain envDecline).upgradeRun = false
            ∧ (runMain envDecline).repinReached = false
            ∧ (runMain envDecline).written = none
            ∧ (runMain envDecline).outcome = .returned)) :=
  ⟨by decide, confirmation_gate_exact envDecline (by decide)⟩

/-! ## Claim C5: failing upgrade command -/

/-- C5: when the upgrade command exits non-zero at a reached, affirmed
Confirmation Gate, the run ends with `CommandError` (caught and printed by
`main`), the Repinner is never reached, and the manifest file is not
written. -/
theorem upgrade_failure_terminates (env : Env)
    (h : (runMain env).gateReached = true)
    (hy : pyLower (pyStrip env.userInput) = "y") (he : env.upgradeExit ≠ 0) :
    (runMain env).outcome = .caughtCommandError
    ∧ (runMain env).repinReached = false ∧ (runMain env).written = none := by
  obtain ⟨deps, td, pc, cands, heq⟩ := gateReached_inv env h
  rw [heq, gateStage_fail env deps td pc cands hy he]
  exact ⟨rfl, rfl, rfl⟩

/-- Witness for C5 at a concrete run whose `pip install` exits 1. -/
theorem upgrade_failure_terminates_witness :
    (runMain envUpgradeFail).gateReached = true
    ∧ pyLower (pyStrip envUpgradeFail.userInput) = "y"
    ∧ envUpgradeFail.upgradeExit ≠ 0
    ∧ ((runMain envUpgradeFail).outcome = .caughtCommandError
        ∧ (runMain envUpgradeFail).repinReached = false
        ∧ (runMain envUpgradeFail).written = none) :=
  ⟨by decide, by decide, by decide,
    upgrade_failure_terminates envUpgradeFail (by decide) (by decide) (by decide)⟩

/-! ## Claim C7: temporary file cleanup -/

/-- C7: on both exit paths of the upgrade step — normal completion and a
`CommandError` from a failing upgrade command — the temporary file holding
the candidate names was created and no longer exists when the step returns
or propagates. -/
theorem tmpfile_cleanup (cands : PyDict (String × String)) (input : String)
    (exitCode : Nat) (h : pyLower (pyStrip input) = "y") :
    ((_confirm_and_upgrade cands input exitCode).2).tmpCreated = true
    ∧ ((_confirm_and_upgrade cands input exitCode).2).tmpExists = false
    ∧ ((_confirm_and_upgrade cands input exitCode).1 = .ok true
       ∨ (_confirm_and_upgrade cands input exitCode).1 = .error .commandError) := by
  by_cases he : exitCode = 0
  · subst he
    rw [confirm_ok cands input h]
    exact ⟨rfl, rfl, Or.inl rfl⟩
  · rw [confirm_fail cands input exitCode h he]
    exact ⟨rfl, rfl, Or.inr rfl⟩

/-- Witness for C7 with a failing upgrade command. -/
theorem tmpfile_cleanup_witness :
    pyLower (pyStrip "y") = "y"
    ∧ (((_confirm_and_upgrade [("requests", ("2.0.0", "2.31.0"))] "y" 1).2).tmpCreated
          = true
        ∧ ((_confirm_and_upgrade [("requests", ("2.0.0", "2.31.0"))] "y" 1).2).tmpExists
          = false
        ∧ ((_confirm_and_upgrade [("requests", ("2.0.0", "2.31.0"))] "y" 1).1 = .ok true
           ∨ (_confirm_and_upgrade [("requests", ("2.0.0", "2.31.0"))] "y" 1).1
             = .error .commandError)) :=
  ⟨by decide, tmpfile_cleanup [("requests", ("2.0.0", "2.31.0"))] "y" 1 (by decide)⟩

/-! ## Claim C6: the Candidate Set is the name intersection -/

/-- C6: (i) a name is in the Candidate Set exactly when it is a key of the
outdated mapping and a key of the Dependency Entry mapping; (ii) a name keys
the outdated mapping exactly when some outdated record's lowercased name
equals it; (iii) when the outdated listing is disjoint from the dependency
names, the run prints the nothing-to-do message and returns before the
Confirmation Gate, with no upgrade and no manifest write. -/
theorem candidate_set_intersection :
    (∀ (outd : PyDict (String × String)) (deps : PyDict String) (k : String),
      dictContains (_get_upgrade_candidates_pure outd deps) k = true
        ↔ (dictContains outd k = true ∧ dictContains deps k = true))
    ∧ (∀ (recs : List OutdatedPkg) (k : String),
      dictContains (list_outdated recs) k = true ↔ ∃ r ∈ recs, pyLower r.name = k)
    ∧ (∀ (env : Env) (deps : PyDict String) (td : Option TomlDoc) (pc : Bool)
        (first second : String) (rest : List String) (recs : List OutdatedPkg),
      env.fileExists = true → env.isDir = false →
      pySplitDot (pyLower env.fileName) = first :: second :: rest →
      ¬(second = "toml" ∧ first ≠ "pyproject") →
      _get_file_dependencies env = (some deps, td, pc) → deps ≠ [] →
      env.query = ⟨true, 0, some recs⟩ →
      (∀ k, ¬(dictContains (list_outdated recs) k = true
              ∧ dictContains deps k = true)) →
      (runMain env).printedNothingToDo = true
      ∧ (runMain env).outcome = .returned
      ∧ (runMain env).gateReached = false
      ∧ (runMain env).upgradeRun = false
      ∧ (runMain env).written = none) := by
  refine ⟨cands_contains_iff, list_outdated_contains_iff, ?_⟩
  intro env deps td pc first second rest recs h1 h2 h3 h4 h5 h6 hq hdisj
  rw [runMain_eq_afterDeps env deps td pc first second rest h1 h2 h3 h4 h5]
  have hqok : list_outdatedRun env.query = .ok (list_outdated recs) := by
    rw [hq]
    rfl
  unfold afterDeps
  rw [if_neg h6]
  simp only [hqok]
  rw [if_pos (cands_empty_of_disjoint _ _ hdisj)]
  exact ⟨rfl, rfl, rfl, rfl, rfl⟩

/-- Witness for C6 at a disjoint outdated listing (`numpy` outdated, manifest
declares `requests` and `Click`). -/
theorem candidate_set_intersection_witness :
    (dictContains
        (_get_upgrade_candidates_pure
          (list_outdated [⟨"numpy", "1.0", "2.0"⟩])
          [("requests", "requests==2.0.0"), ("click", "Click==7.0")]) "requests" = true
      ↔ (dictContains (list_outdated [⟨"numpy", "1.0", "2.0"⟩]) "requests" = true
          ∧ dictContains
              [("requests", "requests==2.0.0"), ("click", "Click==7.0")] "requests"
            = true))
    ∧ ((runMain envDisjoint).printedNothingToDo = true
        ∧ (runMain envDisjoint).outcome = .returned
        ∧ (runMain envDisjoint).gateReached = false
        ∧ (runMain envDisjoint).upgradeRun = false
        ∧ (runMain envDisjoint).written = none) :=
  ⟨candidate_set_intersection.1 _ _ "requests",
    candidate_set_intersection.2.2 envDisjoint
      [("requests", "requests==2.0.0"), ("click", "Click==7.0")] none false
      "requirements" "txt" [] [⟨"numpy", "1.0", "2.0"⟩]
      (by decide) (by decide) (by decide) (by decide) (by decide) (by decide)
      (by decide)
      (by
        intro k hk
        obtain ⟨h1, h2⟩ := hk
        obtain ⟨r, hr, hrk⟩ := (list_outdated_contains_iff _ k).1 h1
        rcases List.mem_singleton.1 hr with rfl
        rw [← hrk] at h2
        exact absurd h2 (by decide))⟩

/-! ## Claim C2 (amended): the conflict check tests key presence -/

/-- C2 (amended): for a line-based input manifest, the run aborts with the
user-facing conflict message, before any package-manager query and with no
write and no dependency mapping in use, exactly when the sibling
`pyproject.toml` exists and *contains* a `[project] dependencies` key — even
when that list is empty.  When the sibling is absent or lacks the key, the
run proceeds using the line-based manifest. -/
theorem conflict_on_key_presence (env : Env) (first second : String)
    (rest : List String)
    (h1 : env.fileExists = true) (h2 : env.isDir = false)
    (h3 : pySplitDot (pyLower env.fileName) = first :: second :: rest)
    (h4 : ¬(second = "toml" ∧ first ≠ "pyproject"))
    (h5 : ¬ pyLower env.fileName = "pyproject.toml") :
    (check_conflicting_sources env.siblingTomlExists env.siblingToml
        = (env.siblingTomlExists && tomlHasDepsKey env.siblingToml))
    ∧ (check_conflicting_sources env.siblingTomlExists env.siblingToml = true →
        (runMain env).printedConflict = true
        ∧ (runMain env).queryPerformed = false
        ∧ (runMain env).written = none
        ∧ (runMain env).outcome = .returned
        ∧ (runMain env).depsUsed = none)
    ∧ (check_conflicting_sources env.siblingTomlExists env.siblingToml = false →
        (runMain env).printedConflict = false
        ∧ (runMain env).depsUsed = some (load_requirements env.fileLines)) := by
  refine ⟨rfl, fun hc => ?_, fun hc => ?_⟩
  · rw [runMain_eq_of_no_deps env none true first second rest h1 h2 h3 h4
      (gfd_conflict env h5 hc)]
    exact ⟨rfl, rfl, rfl, rfl, rfl⟩
  · rw [runMain_eq_afterDeps env (load_requirements env.fileLines) none false
      first second rest h1 h2 h3 h4 (gfd_line env h5 hc)]
    exact afterDeps_pc_deps env (load_requirements env.fileLines) none false

/-- C2 is false as stated: with a sibling `pyproject.toml` whose
`[project] dependencies` list exists but is *empty*, the claim requires the
run to proceed with the line-based manifest, but the code aborts with the
conflict message before any query, using no dependency mapping. -/
theorem conflict_empty_section_counterexample :
    envEmptySection.siblingToml = ⟨some ⟨some []⟩⟩
    ∧ (runMain envEmptySection).printedConflict = true
    ∧ (runMain envEmptySection).queryPerformed = false
    ∧ (runMain envEmptySection).depsUsed = none
    ∧ (runMain envEmptySection).outcome = .returned := by decide

/-- Witness for the amended C2, on the conflict branch (empty dependency
list) and on the proceed branch (no sibling manifest). -/
theorem conflict_on_key_presence_witness :
    ((check_conflicting_sources envEmptySection.siblingTomlExists
          envEmptySection.siblingToml
        = (envEmptySection.siblingTomlExists
            && tomlHasDepsKey envEmptySection.siblingToml))
      ∧ (check_conflicting_sources envEmptySection.siblingTomlExists
            envEmptySection.siblingToml = true →
          (runMain envEmptySection).printedConflict = true
          ∧ (runMain envEmptySection).queryPerformed = false
          ∧ (runMain envEmptySection).written = none
          ∧ (runMain envEmptySection).outcome = .returned
          ∧ (runMain envEmptySection).depsUsed = none)
      ∧ (check_conflicting_sources envEmptySection.siblingTomlExists
            envEmptySection.siblingToml = false →
          (runMain envEmptySection).printedConflict = false
          ∧ (runMain envEmptySection).depsUsed
            = some (load_requirements envEmptySection.fileLines)))
    ∧ ((check_conflicting_sources envRepin.siblingTomlExists envRepin.siblingToml
        = (envRepin.siblingTomlExists && tomlHasDepsKey envRepin.siblingToml))
      ∧ (check_conflicting_sources envRepin.siblingTomlExists envRepin.siblingToml
            = true →
          (runMain envRepin).printedConflict = true
          ∧ (runMain envRepin).queryPerformed = false
          ∧ (runMain envRepin).written = none
          ∧ (runMain envRepin).outcome = .returned
          ∧ (runMain envRepin).depsUsed = none)
      ∧ (check_conflicting_sources envRepin.siblingTomlExists envRepin.siblingToml
            = false →
          (runMain envRepin).printedConflict = false
          ∧ (runMain envRepin).depsUsed
            = some (load_requirements envRepin.fileLines))) :=
  ⟨conflict_on_key_presence envEmptySection "requirements" "txt" []
      (by decide) (by decide) (by decide) (by decide) (by decide),
    conflict_on_key_presence envRepin "requirements" "txt" []
      (by decide) (by decide) (by decide) (by decide) (by decide)⟩

/-! ## Claim C4 (amended): query failures are uncaught -/

/-- C4 (amended): when the outdated-listing subprocess cannot be invoked,
exits non-zero, or produces unparseable output, `list_outdated` raises an
uncaught builtin exception — `OSError`, `CalledProcessError`, or
`JSONDecodeError` respectively — which `main`'s handler (catching only
`CommandError`) does not intercept; no `QueryError` exists in the code.  The
manifest is not written in any of these cases. -/
theorem query_failure_uncaught (env : Env) (deps : PyDict String)
    (td : Option TomlDoc) (pc : Bool) (first second : String) (rest : List String)
    (h1 : env.fileExists = true) (h2 : env.isDir = false)
    (h3 : pySplitDot (pyLower env.fileName) = first :: second :: rest)
    (h4 : ¬(second = "toml" ∧ first ≠ "pyproject"))
    (h5 : _get_file_dependencies env = (some deps, td, pc))
    (h6 : deps ≠ []) :
    (env.query.invokable = false →
      (runMain env).outcome = .uncaught .osError ∧ (runMain env).written = none)
    ∧ (env.query.invokable = true → env.query.exitCode ≠ 0 →
      (runMain env).outcome = .uncaught .calledProcessError
      ∧ (runMain env).written = none)
    ∧ (env.query.invokable = true → env.query.exitCode = 0 →
        env.query.parsed = none →
      (runMain env).outcome = .uncaught .jsonDecodeError
      ∧ (runMain env).written = none) := by
  rw [runMain_eq_afterDeps env deps td pc first second rest h1 h2 h3 h4 h5]
  refine ⟨fun hi => ?_, fun hi he => ?_, fun hi he hp => ?_⟩
  · have hq : list_outdatedRun env.query = .error .osError := by
      unfold list_outdatedRun
      rw [hi]
      simp
    unfold afterDeps
    rw [if_neg h6]
    simp only [hq]
    simp
  · have hq : list_outdatedRun env.query = .error .calledProcessError := by
      unfold list_outdatedRun
      rw [hi, if_neg (by simp), if_pos he]
    unfold afterDeps
    rw [if_neg h6]
    simp only [hq]
    simp
  · have hq : list_outdatedRun env.query = .error .jsonDecodeError := by
      unfold list_outdatedRun
      rw [hi, if_neg (by simp), if_neg (by simp [he]), hp]
    unfold afterDeps
    rw [if_neg h6]
    simp only [hq]
    simp

/-- C4 is false as stated: at a concrete run whose listing command exits 1,
the run terminates with an *uncaught* `CalledProcessError` — not with a
surfaced `QueryError` (the code defines no such type and catches only
`CommandError`). -/
theorem query_error_counterexample :
    (runMain envQueryFail).queryPerformed = true
    ∧ (runMain envQueryFail).outcome = .uncaught .calledProcessError
    ∧ (runMain envQueryFail).outcome ≠ .caughtCommandError := by decide

/-- Witness for the amended C4: all three failure modes at concrete runs. -/
theorem query_failure_uncaught_witness :
    ((envQueryFail.query.invokable = false →
        (runMain envQueryFail).outcome = .uncaught .osError
        ∧ (runMain envQueryFail).written = none)
      ∧ (envQueryFail.query.invokable = true → envQueryFail.query.exitCode ≠ 0 →
        (runMain envQueryFail).outcome = .uncaught .calledProcessError
        ∧ (runMain envQueryFail).written = none)
      ∧ (envQueryFail.query.invokable = true → envQueryFail.query.exitCode = 0 →
          envQueryFail.query.parsed = none →
        (runMain envQueryFail).outcome = .uncaught .jsonDecodeError
        ∧ (runMain envQueryFail).written = none)) :=
  query_failure_uncaught envQueryFail
    [("requests", "requests==2.0.0"), ("click", "Click==7.0")] none false
    "requirements" "txt" []
    (by decide) (by decide) (by decide) (by decide) (by decide) (by decide)

/-! ## Claim C1 (amended): what the Repinner preserves -/

theorem repinTomlList_ok (cands : PyDict (String × String)) (frozen : PyDict String) :
    ∀ deps : PyDict String,
      (∀ p ∈ deps, dictContains cands p.1 = true → dictContains frozen p.1 = true) →
      repinTomlList cands frozen deps
        = .ok (deps.map (fun p =>
            if dictContains cands p.1 = true
            then (dictLookup frozen p.1).getD p.2 else p.2)) := by
  intro deps
  induction deps with
  | nil => intro _; rfl
  | cons p rest ih =>
    intro hall
    unfold repinTomlList
    by_cases hc : dictContains cands p.1 = true
    · rw [if_pos hc]
      have hf : dictContains frozen p.1 = true :=
        hall p (List.mem_cons_self _ _) hc
      unfold dictContains at hf
      cases hl : dictLookup frozen p.1 with
      | none => rw [hl] at hf; simp at hf
      | some l =>
        simp only [hl]
        rw [ih (fun q hq => hall q (List.mem_cons_of_mem _ hq))]
        simp [hc, hl]
        rfl
    · rw [if_neg hc, ih (fun q hq => hall q (List.mem_cons_of_mem _ hq))]
      simp [hc]
      rfl

/-- C1 (amended): after a successful freeze, the Repinner behaves differently
in its two branches.  Structured branch (`pyproject.toml`): each candidate's
declaration is replaced by the frozen pin and every non-candidate entry keeps
its original declaration string.  Line-based branch (`requirements.txt`):
*every* entry whose name appears in the freeze output is rewritten to the
frozen line — candidate or not — and an entry keeps its original declaration
only when its name is absent from the freeze output. -/
theorem repin_frame (deps : PyDict String) (cands : PyDict (String × String))
    (doc : TomlDoc) (proj : TomlProject) (stdout : String)
    (hdoc : doc.project = some proj)
    (hfz : ∀ p ∈ deps, dictContains cands p.1 = true →
      dictContains (frozenOf (pyStrip stdout)) p.1 = true) :
    _repin_dependencies "requirements.txt" deps none cands 0 stdout
      = .ok (.lines (deps.map (fun p =>
          (dictLookup (frozenOf (pyStrip stdout)) p.1).getD p.2)))
    ∧ _repin_dependencies "pyproject.toml" deps (some doc) cands 0 stdout
      = .ok (.toml (withDeps doc proj (deps.map (fun p =>
          if dictContains cands p.1 = true
          then (dictLookup (frozenOf (pyStrip stdout)) p.1).getD p.2 else p.2))))
    ∧ (∀ p ∈ deps, dictContains cands p.1 = false →
        (if dictContains cands p.1 = true
         then (dictLookup (frozenOf (pyStrip stdout)) p.1).getD p.2 else p.2) = p.2)
    ∧ (∀ p ∈ deps, ∀ l, dictLookup (frozenOf (pyStrip stdout)) p.1 = some l →
        (dictLookup (frozenOf (pyStrip stdout)) p.1).getD p.2 = l) := by
  have hrc : runCmd 0 stdout true = Except.ok (pyStrip stdout) := rfl
  refine ⟨?_, ?_, ?_, ?_⟩
  · unfold _repin_dependencies
    simp only [hrc]
    simp
  · unfold _repin_dependencies
    simp only [hrc]
    rw [if_neg (by decide), repinTomlList_ok cands _ deps hfz]
    simp only [hdoc]
  · intro p _ hc
    rw [if_neg (by simp [hc])]
  · intro p _ l hl
    rw [hl]
    rfl

/-- C1 is false as stated: a complete successful run on a line-based manifest
(`envRepin`) in which `click` is *not* in the Candidate Set (only `requests`
is outdated) still rewrites the `Click==7.0` declaration to the freeze
output's `click==7.0`, which is not byte-identical to the original. -/
theorem repin_frame_counterexample :
    (runMain envRepin).outcome = .returned
    ∧ (runMain envRepin).upgradeRun = true
    ∧ (runMain envRepin).repinReached = true
    ∧ dictLookup (load_requirements envRepin.fileLines) "click" = some "Click==7.0"
    ∧ dictContains
        (_get_upgrade_candidates_pure
          (list_outdated [⟨"requests", "2.0.0", "2.31.0"⟩])
          (load_requirements envRepin.fileLines)) "click" = false
    ∧ (runMain envRepin).written = some (.lines ["requests==2.31.0", "click==7.0"])
    ∧ ("click==7.0" : String) ≠ "Click==7.0" := by decide

/-- Witness for the amended C1 at concrete data: `requests` is the only
candidate, yet the line-based branch also repins the non-candidate `click`. -/
theorem repin_frame_witness :
    (_repin_dependencies "requirements.txt"
        [("requests", "requests==2.0.0"), ("click", "Click==7.0")] none
        [("requests", ("2.0.0", "2.31.0"))] 0 "requests==2.31.0\nclick==7.0"
      = .ok (.lines ([("requests", "requests==2.0.0"), ("click", "Click==7.0")].map
          (fun p =>
            (dictLookup (frozenOf (pyStrip "requests==2.31.0\nclick==7.0")) p.1).getD
              p.2))))
    ∧ (_repin_dependencies "pyproject.toml"
        [("requests", "requests==2.0.0"), ("click", "Click==7.0")]
        (some ⟨some ⟨some ["requests==2.0.0", "Click==7.0"]⟩⟩)
        [("requests", ("2.0.0", "2.31.0"))] 0 "requests==2.31.0\nclick==7.0"
      = .ok (.toml (withDeps ⟨some ⟨some ["requests==2.0.0", "Click==7.0"]⟩⟩
          ⟨some ["requests==2.0.0", "Click==7.0"]⟩
          ([("requests", "requests==2.0.0"), ("click", "Click==7.0")].map
            (fun p =>
              if dictContains [("requests", ("2.0.0", "2.31.0"))] p.1 = true
              then (dictLookup
                  (frozenOf (pyStrip "requests==2.31.0\nclick==7.0")) p.1).getD p.2
              else p.2)))))
    ∧ (∀ p ∈ ([("requests", "requests==2.0.0"), ("click", "Click==7.0")] : PyDict String),
        dictContains [("requests", ("2.0.0", "2.31.0"))] p.1 = false →
        (if dictContains [("requests", ("2.0.0", "2.31.0"))] p.1 = true
         then (dictLookup
             (frozenOf (pyStrip "requests==2.31.0\nclick==7.0")) p.1).getD p.2
         else p.2) = p.2)
    ∧ (∀ p ∈ ([("requests", "requests==2.0.0"), ("click", "Click==7.0")] : PyDict String),
        ∀ l, dictLookup (frozenOf (pyStrip "requests==2.31.0\nclick==7.0")) p.1
            = some l →
          (dictLookup (frozenOf (pyStrip "requests==2.31.0\nclick==7.0")) p.1).getD p.2
            = l) :=
  repin_frame [("requests", "requests==2.0.0"), ("click", "Click==7.0")]
    [("requests", ("2.0.0", "2.31.0"))]
    ⟨some ⟨some ["requests==2.0.0", "Click==7.0"]⟩⟩
    ⟨some ["requests==2.0.0", "Click==7.0"]⟩
    "requests==2.31.0\nclick==7.0" rfl (by decide)

/-! ## Claim C9: misnamed line-based manifests crash the Repinner -/

/-- C9: for every run on a line-based manifest whose file name is not exactly
`requirements.txt` that reaches the Repinner (candidates found, confirmation
affirmative, upgrade and freeze successful), the Repinner takes the
structured branch with `toml_data = None`, subscripting `None` raises an
uncaught `TypeError`, and the manifest is never rewritten. -/
theorem misnamed_line_manifest_type_error (env : Env) (first second : String)
    (rest : List String) (recs : List OutdatedPkg)
    (h1 : env.fileExists = true) (h2 : env.isDir = false)
    (h3 : pySplitDot (pyLower env.fileName) = first :: second :: rest)
    (h4 : ¬(second = "toml" ∧ first ≠ "pyproject"))
    (h5 : ¬ pyLower env.fileName = "pyproject.toml")
    (h6 : ¬ env.fileName = "requirements.txt")
    (h7 : check_conflicting_sources env.siblingTomlExists env.siblingToml = false)
    (h8 : load_requirements env.fileLines ≠ [])
    (h9 : env.query = ⟨true, 0, some recs⟩)
    (h10 : _get_upgrade_candidates_pure (list_outdated recs)
            (load_requirements env.fileLines) ≠ [])
    (h11 : pyLower (pyStrip env.userInput) = "y")
    (h12 : env.upgradeExit = 0) (h13 : env.freezeExit = 0)
    (h14 : ∀ p ∈ load_requirements env.fileLines,
      dictContains (_get_upgrade_candidates_pure (list_outdated recs)
          (load_requirements env.fileLines)) p.1 = true →
      dictContains (frozenOf (pyStrip env.freezeStdout)) p.1 = true) :
    (runMain env).repinReached = true
    ∧ (runMain env).outcome = .uncaught .typeError
    ∧ (runMain env).written = none := by
  have hqok : list_outdatedRun env.query = .ok (list_outdated recs) := by
    rw [h9]
    rfl
  rw [runMain_eq_afterDeps env (load_requirements env.fileLines) none false
    first second rest h1 h2 h3 h4 (gfd_line env h5 h7)]
  rw [afterDeps_eq_gateStage env _ none false (list_outdated recs) h8 hqok h10]
  rw [gateStage_proceed env _ none false _ h11 h12]
  unfold repinStage
  have hrep : _repin_dependencies env.fileName (load_requirements env.fileLines)
      none (_get_upgrade_candidates_pure (list_outdated recs)
        (load_requirements env.fileLines)) env.freezeExit env.freezeStdout
      = .error .typeError := by
    unfold _repin_dependencies
    have hrc : runCmd env.freezeExit env.freezeStdout true
        = .ok (pyStrip env.freezeStdout) := by
      unfold runCmd
      rw [if_neg (fun hC => hC h13)]
      rfl
    simp only [hrc]
    rw [if_neg h6]
    rw [repinTomlList_ok _ _ _ h14]
  simp [hrep]

/-- Witness for C9: the full run on `reqs.txt` ends in an uncaught
`TypeError` with nothing written. -/
theorem misnamed_line_manifest_type_error_witness :
    (runMain envMisnamed).repinReached = true
    ∧ (runMain envMisnamed).outcome = .uncaught .typeError
    ∧ (runMain envMisnamed).written = none :=
  misnamed_line_manifest_type_error envMisnamed "reqs" "txt" []
    [⟨"requests", "2.0.0", "2.31.0"⟩]
    (by decide) (by decide) (by decide) (by decide) (by decide) (by decide)
    (by decide) (by decide) (by decide) (by decide) (by decide) (by decide)
    (by decide) (by decide)

/-! ## Claim C10: dot-free file names crash the type check -/

theorem toNat_ofNat_valid {n : Nat} (h : n.isValidChar) :
    (Char.ofNat n).toNat = n := by
  unfold Char.ofNat
  rw [dif_pos h]
  rfl

theorem toLower_ne_dot {c : Char} (h : c ≠ '.') : c.toLower ≠ '.' := by
  intro heq
  simp only [Char.toLower] at heq
  by_cases hc : c.toNat ≥ 65 ∧ c.toNat ≤ 90
  · rw [if_pos hc] at heq
    have hv : (c.toNat + 32).isValidChar := Or.inl (by omega)
    have ht := congrArg Char.toNat heq
    rw [toNat_ofNat_valid hv] at ht
    have hdot : ('.' : Char).toNat = 46 := rfl
    rw [hdot] at ht
    omega
  · rw [if_neg hc] at heq
    exact h heq

theorem splitCharL_no_sep (sep : Char) :
    ∀ l : List Char, (∀ c ∈ l, c ≠ sep) → splitCharL sep l = [l] := by
  intro l
  induction l with
  | nil => intro _; rfl
  | cons c t ih =>
    intro h
    unfold splitCharL
    rw [if_neg (h c (List.mem_cons_self _ _))]
    rw [ih (fun d hd => h d (List.mem_cons_of_mem _ hd))]

theorem pySplitDot_single (s : String) (h : ∀ c ∈ s.data, c ≠ '.') :
    pySplitDot s = [s] := by
  unfold pySplitDot
  rw [splitCharL_no_sep '.' s.data h]
  rfl

/-- C10: for every existing regular file whose name contains no `.`
character, `fn = file_path.name.lower().split(".")` has a single component,
so `fn[1]` raises an uncaught `IndexError`: the run crashes before any query
or manifest access instead of printing a user-facing message. -/
theorem dotfree_name_index_error (env : Env)
    (h1 : env.fileExists = true) (h2 : env.isDir = false)
    (h3 : ∀ c ∈ env.fileName.data, c ≠ '.') :
    (runMain env).outcome = .uncaught .indexError
    ∧ (runMain env).written = none
    ∧ (runMain env).queryPerformed = false := by
  have h3' : ∀ c ∈ (pyLower env.fileName).data, c ≠ '.' := by
    intro c hc
    simp only [pyLower] at hc
    rcases List.mem_map.1 hc with ⟨c0, hc0, rfl⟩
    exact toLower_ne_dot (h3 c0 hc0)
  have hsplit : pySplitDot (pyLower env.fileName) = [pyLower env.fileName] :=
    pySplitDot_single _ h3'
  unfold runMain
  simp only [h1, h2, hsplit]
  simp

/-- Witness for C10: the file name `requirements` (no extension). -/
theorem dotfree_name_index_error_witness :
    (runMain envNoDot).outcome = .uncaught .indexError
    ∧ (runMain envNoDot).written = none
    ∧ (runMain envNoDot).queryPerformed = false :=
  dotfree_name_index_error envNoDot (by decide) (by decide) (by decide)

end Updr
